import Mathlib

/-!
# Verification of `newlib/libm/common/math_config.h`

A shallow embedding of the bit-level helpers of `math_config.h` and proofs of
the properties the specification states about them.

Conventions of the embedding:

* `uint32_t` / `uint64_t` values are natural numbers, reduced `% 2^32` /
  `% 2^64` wherever C arithmetic wraps;
* `int32_t` / `int64_t` / `int` values are integers; a conversion to a signed
  type is the two's-complement wrap `toInt32` / `toInt64`;
* a `float` / `double` is an IEEE-754 binary32 / binary64 datum, i.e. its three
  fields (sign, biased exponent, trailing significand); the object
  representation read by the unions of `asuint` / `asuint64` is the standard
  interchange encoding of those fields;
* preprocessor macros are explicit parameters.
-/

namespace MathConfig

/-! ## Data model -/

/-- An IEEE-754 binary32 datum: the C type `float`. -/
structure float where
  sign : Fin 2
  exponent : Fin 256
  mantissa : Fin (2 ^ 23)
deriving DecidableEq

/-- An IEEE-754 binary64 datum: the C type `double`. -/
structure double where
  sign : Fin 2
  exponent : Fin 2048
  mantissa : Fin (2 ^ 52)
deriving DecidableEq

/-- Conversion of an integer value to `int32_t` / `int` (two's complement wrap). -/
def toInt32 (v : Int) : Int := (v + 2 ^ 31) % 2 ^ 32 - 2 ^ 31

/-- Conversion of an integer value to `int64_t` (two's complement wrap). -/
def toInt64 (v : Int) : Int := (v + 2 ^ 63) % 2 ^ 64 - 2 ^ 63

/-- Conversion of an integer value to `uint32_t`. -/
def toUInt32 (v : Int) : Nat := (v % 2 ^ 32).toNat

/-- Conversion of an integer value to `uint64_t`. -/
def toUInt64 (v : Int) : Nat := (v % 2 ^ 64).toNat

/-! ## Bit reinterpretation (`math_config.h` lines 144-270) -/

/-- The function `asuint`: the 32 bits of the object representation of `f`.
Both code paths (the `fmv.x.w` move and the union overlay) read the same
32 bits: sign in bit 31, biased exponent in bits 23..30, mantissa in bits 0..22. -/
def asuint (f : float) : Nat :=
  f.sign.val * 2 ^ 31 + f.exponent.val * 2 ^ 23 + f.mantissa.val

/-- The function `asfloat`: the `float` whose object representation is the
`uint32_t` value `i` (the argument is converted to `uint32_t` first, so only
its low 32 bits matter). -/
def asfloat (i : Nat) : float :=
  { sign := ⟨i / 2 ^ 31 % 2, Nat.mod_lt _ (by decide)⟩
    exponent := ⟨i / 2 ^ 23 % 256, Nat.mod_lt _ (by decide)⟩
    mantissa := ⟨i % 2 ^ 23, Nat.mod_lt _ (by decide)⟩ }

/-- The function `_asint32`: `(int32_t) asuint(f)`. -/
def _asint32 (f : float) : Int := toInt32 (asuint f)

/-- The function `_asfloat`: `asfloat((uint32_t) i)`. -/
def _asfloat (i : Int) : float := asfloat (toUInt32 i)

/-- The function `asuint64`: the 64 bits of the object representation of `f`. -/
def asuint64 (f : double) : Nat :=
  f.sign.val * 2 ^ 63 + f.exponent.val * 2 ^ 52 + f.mantissa.val

/-- The function `asdouble`: the `double` whose object representation is the
`uint64_t` value `i`. -/
def asdouble (i : Nat) : double :=
  { sign := ⟨i / 2 ^ 63 % 2, Nat.mod_lt _ (by decide)⟩
    exponent := ⟨i / 2 ^ 52 % 2048, Nat.mod_lt _ (by decide)⟩
    mantissa := ⟨i % 2 ^ 52, Nat.mod_lt _ (by decide)⟩ }

/-- The function `_asint64`: `(int64_t) asuint64(f)`. -/
def _asint64 (f : double) : Int := toInt64 (asuint64 f)

/-- The function `_asdouble`: `asdouble((uint64_t) i)`. -/
def _asdouble (i : Int) : double := asdouble (toUInt64 i)

/-! ## Special-value classification (`math_config.h` lines 272-291) -/

/-- The macro `IEEE_754_2008_SNAN`: `1` unless the build defines it. -/
def IEEE_754_2008_SNAN (predefined : Option Int) : Int := predefined.getD 1

/-- The function `issignalingf_inline`, with the value of the macro
`IEEE_754_2008_SNAN` as first argument. All arithmetic is `uint32_t`. -/
def issignalingf_inline (snan : Int) (x : float) : Int :=
  let ix := asuint x
  if snan = 0 then
    (if ix &&& 0x7fc00000 = 0x7fc00000 then 1 else 0)
  else
    (if (2 * (ix ^^^ 0x00400000)) % 2 ^ 32 > 0xFF800000 then 1 else 0)

/-- The function `issignaling_inline`, with the value of the macro
`IEEE_754_2008_SNAN` as first argument. All arithmetic is `uint64_t`. -/
def issignaling_inline (snan : Int) (x : double) : Int :=
  let ix := asuint64 x
  if snan = 0 then
    (if ix &&& 0x7ff8000000000000 = 0x7ff8000000000000 then 1 else 0)
  else
    (if (2 * (ix ^^^ 0x0008000000000000)) % 2 ^ 64 > (2 * 0x7ff8000000000000) % 2 ^ 64
      then 1 else 0)

/-- IEEE-754 negation of a `float` (`-x`): the same bit pattern with the top bit
(bit 31) flipped, every other bit kept, NaN payloads included. -/
def negf (x : float) : float := asfloat (asuint x ^^^ 0x80000000)

/-- IEEE-754 negation of a `double` (`-x`): the same bit pattern with the top bit
(bit 63) flipped. -/
def neg (x : double) : double := asdouble (asuint64 x ^^^ 0x8000000000000000)

/-! ## Field extraction (`math_config.h` lines 184-264) -/

/-- The function `_sign32`: `((uint32_t) ix) >> 31`, returned as `int`. -/
def _sign32 (ix : Int) : Int := toInt32 ((toUInt32 ix >>> 31 : Nat) : Int)

/-- The function `_exponent32`: `(ix >> 23) & 0xff` on `int` operands, where
`>>` on a negative value is the arithmetic shift. -/
def _exponent32 (ix : Int) : Int := Int.land (ix >>> (23 : Nat)) 0xff

/-- The function `_significand32`: `ix & 0x7fffff` on `int` operands. -/
def _significand32 (ix : Int) : Int := Int.land ix 0x7fffff

/-- The function `_sign64`: `((uint64_t) ix) >> 63`, converted to the `int`
return type. -/
def _sign64 (ix : Int) : Int := toInt32 ((toUInt64 ix >>> 63 : Nat) : Int)

/-- The function `_exponent64`: `(ix >> 52) & 0x7ff` on `int64_t` operands,
converted to the `int` return type. -/
def _exponent64 (ix : Int) : Int := toInt32 (Int.land (ix >>> (52 : Nat)) 0x7ff)

/-- The function `_significand64`: `ix & 0xfffffffffffffLL` on `int64_t` operands. -/
def _significand64 (ix : Int) : Int := Int.land ix 0xfffffffffffff

/-! ## Errno policy and output checkers (`math_config.h` lines 37-52, 386-414, 549-558) -/

/-- The macro `WANT_ERRNO`: `0` when `_IEEE_LIBM` is defined, `1` otherwise. -/
def WANT_ERRNO (ieee_libm_defined : Bool) : Int := if ieee_libm_defined then 0 else 1

/-- The observable global state: the error indicator `errno`, and the number of
calls made so far to functions that are only declared in the header (the
out-of-line checkers and reporters). -/
structure Env where
  errno : Int
  calls : Nat
deriving DecidableEq

/-- A call of an out-of-line function `f`: it runs `f`, whose effect on the
state is whatever its definition (outside the header) does, and is counted. -/
def callExt {α : Type} (f : Env → α × Env) (w : Env) : α × Env :=
  let r := f w
  (r.1, { r.2 with calls := r.2.calls + 1 })

/-- The function `check_oflow`: `WANT_ERRNO ? __math_check_oflow (x) : x`. -/
def check_oflow (want_errno : Int) (__math_check_oflow : double → Env → double × Env)
    (x : double) (w : Env) : double × Env :=
  if want_errno ≠ 0 then callExt (__math_check_oflow x) w else (x, w)

/-- The function `check_oflowf`: `WANT_ERRNO ? __math_check_oflowf (x) : x`. -/
def check_oflowf (want_errno : Int) (__math_check_oflowf : float → Env → float × Env)
    (x : float) (w : Env) : float × Env :=
  if want_errno ≠ 0 then callExt (__math_check_oflowf x) w else (x, w)

/-- The function `check_uflow`: `WANT_ERRNO ? __math_check_uflow (x) : x`. -/
def check_uflow (want_errno : Int) (__math_check_uflow : double → Env → double × Env)
    (x : double) (w : Env) : double × Env :=
  if want_errno ≠ 0 then callExt (__math_check_uflow x) w else (x, w)

/-- The name `__math_with_errno`: under `#if WANT_ERRNO` the out-of-line function
declared in the header, otherwise the macro `(x)`. -/
def __math_with_errno (want_errno : Int) (ext : double → Int → Env → double × Env)
    (x : double) (e : Int) (w : Env) : double × Env :=
  if want_errno ≠ 0 then callExt (ext x e) w else (x, w)

/-- The name `__math_with_errnof`: under `#if WANT_ERRNO` the out-of-line function
declared in the header, otherwise the macro `(x)`. -/
def __math_with_errnof (want_errno : Int) (ext : float → Int → Env → float × Env)
    (x : float) (e : Int) (w : Env) : float × Env :=
  if want_errno ≠ 0 then callExt (ext x e) w else (x, w)

/-! ## Table schemas (`math_config.h` lines 433-547) -/

/-- A member of a table struct: its name, the C type of one element, and the
declared array length (`none` for a member that is not an array). -/
structure Member where
  name : String
  elem : String
  dim : Option Nat
deriving DecidableEq

/-- The declared array length of the member called `n`, if there is such an
array member. -/
def Member.dimOf (s : List Member) (n : String) : Option Nat :=
  (s.find? (fun m => m.name = n)).bind (fun m => m.dim)

def EXP2F_TABLE_BITS : Nat := 5
def EXP2F_POLY_ORDER : Nat := 3
def LOGF_TABLE_BITS : Nat := 4
def LOGF_POLY_ORDER : Nat := 4
def LOG2F_TABLE_BITS : Nat := 4
def LOG2F_POLY_ORDER : Nat := 4
def POWF_LOG2_TABLE_BITS : Nat := 4
def POWF_LOG2_POLY_ORDER : Nat := 5
def EXP_TABLE_BITS : Nat := 7
def EXP_POLY_ORDER : Nat := 5
def EXP2_POLY_ORDER : Nat := 5
def LOG_TABLE_BITS : Nat := 7
def LOG_POLY_ORDER : Nat := 6
def LOG_POLY1_ORDER : Nat := 12
def LOG2_TABLE_BITS : Nat := 6
def LOG2_POLY_ORDER : Nat := 7
def LOG2_POLY1_ORDER : Nat := 11
def POW_LOG_TABLE_BITS : Nat := 7
def POW_LOG_POLY_ORDER : Nat := 8

/-- The declaration `struct exp2f_data`. -/
def exp2f_data : List Member :=
  [ ⟨"tab", "uint64_t", some (1 <<< EXP2F_TABLE_BITS)⟩,
    ⟨"shift_scaled", "double", none⟩,
    ⟨"poly", "double", some EXP2F_POLY_ORDER⟩,
    ⟨"shift", "double", none⟩,
    ⟨"invln2_scaled", "double", none⟩,
    ⟨"poly_scaled", "double", some EXP2F_POLY_ORDER⟩ ]

/-- The declaration `struct logf_data`. -/
def logf_data : List Member :=
  [ ⟨"tab", "struct (double invc, logc)", some (1 <<< LOGF_TABLE_BITS)⟩,
    ⟨"ln2", "double", none⟩,
    ⟨"poly", "double", some (LOGF_POLY_ORDER - 1)⟩ ]

/-- The declaration `struct log2f_data`. -/
def log2f_data : List Member :=
  [ ⟨"tab", "struct (double invc, logc)", some (1 <<< LOG2F_TABLE_BITS)⟩,
    ⟨"poly", "double", some LOG2F_POLY_ORDER⟩ ]

/-- The declaration `struct powf_log2_data`. -/
def powf_log2_data : List Member :=
  [ ⟨"tab", "struct (double invc, logc)", some (1 <<< POWF_LOG2_TABLE_BITS)⟩,
    ⟨"poly", "double", some POWF_LOG2_POLY_ORDER⟩ ]

/-- The declaration `struct exp_data`. -/
def exp_data : List Member :=
  [ ⟨"invln2N", "double", none⟩,
    ⟨"shift", "double", none⟩,
    ⟨"negln2hiN", "double", none⟩,
    ⟨"negln2loN", "double", none⟩,
    ⟨"poly", "double", some 4⟩,
    ⟨"exp2_shift", "double", none⟩,
    ⟨"exp2_poly", "double", some EXP2_POLY_ORDER⟩,
    ⟨"tab", "uint64_t", some (2 * (1 <<< EXP_TABLE_BITS))⟩ ]

/-- The declaration `struct log_data`, with the value of the macro
`HAVE_FAST_FMA` as argument (`tab2` is under `#if !HAVE_FAST_FMA`). -/
def log_data (have_fast_fma : Int) : List Member :=
  [ ⟨"ln2hi", "double", none⟩,
    ⟨"ln2lo", "double", none⟩,
    ⟨"poly", "double", some (LOG_POLY_ORDER - 1)⟩,
    ⟨"poly1", "double", some (LOG_POLY1_ORDER - 1)⟩,
    ⟨"tab", "struct (double invc, logc)", some (1 <<< LOG_TABLE_BITS)⟩ ] ++
  (if have_fast_fma = 0 then
    [ ⟨"tab2", "struct (double chi, clo)", some (1 <<< LOG_TABLE_BITS)⟩ ]
  else [])

/-- The declaration `struct log2_data`, with the value of the macro
`HAVE_FAST_FMA` as argument (`tab2` is under `#if !HAVE_FAST_FMA`). -/
def log2_data (have_fast_fma : Int) : List Member :=
  [ ⟨"invln2hi", "double", none⟩,
    ⟨"invln2lo", "double", none⟩,
    ⟨"poly", "double", some (LOG2_POLY_ORDER - 1)⟩,
    ⟨"poly1", "double", some (LOG2_POLY1_ORDER - 1)⟩,
    ⟨"tab", "struct (double invc, logc)", some (1 <<< LOG2_TABLE_BITS)⟩ ] ++
  (if have_fast_fma = 0 then
    [ ⟨"tab2", "struct (double chi, clo)", some (1 <<< LOG2_TABLE_BITS)⟩ ]
  else [])

/-- The declaration `struct pow_log_data`. -/
def pow_log_data : List Member :=
  [ ⟨"ln2hi", "double", none⟩,
    ⟨"ln2lo", "double", none⟩,
    ⟨"poly", "double", some (POW_LOG_POLY_ORDER - 1)⟩,
    ⟨"tab", "struct (double invc, pad, logc, logctail)", some (1 <<< POW_LOG_TABLE_BITS)⟩ ]

/-- Whether the struct declares a member called `n`. -/
def Member.has (s : List Member) (n : String) : Bool :=
  s.any (fun m => m.name = n)

/-! ## Feature resolution (`math_config.h` lines 37-52, 77-142, 469-476) -/

/-- The macros of the target and the compiler that the header tests in `#if`;
`none` stands for a macro that is not defined. -/
structure Target where
  __aarch64__ : Option Int
  __GNUC__ : Option Int
  __GNUC_MINOR__ : Option Int
  __NO_MATH_ERRNO__ : Option Int
  __ARM_FEATURE_FMA : Option Int
  __ARM_FP : Option Int
  __riscv_flen : Option Int

/-- The value of a macro inside an `#if` expression: an identifier that is not
defined evaluates to 0. -/
def ppValue (m : Option Int) : Int := m.getD 0

/-- The macro `WANT_ROUNDING`: `1` unless the build defines it. -/
def WANT_ROUNDING (predefined : Option Int) : Int := predefined.getD 1

/-- The macro `WANT_ERRNO_UFLOW`: `(WANT_ROUNDING && WANT_ERRNO)` unless the
build defines it. -/
def WANT_ERRNO_UFLOW (predefined : Option Int) (want_rounding want_errno : Int) : Int :=
  match predefined with
  | some v => v
  | none => if want_rounding ≠ 0 ∧ want_errno ≠ 0 then 1 else 0

/-- The macro `HAVE_FAST_ROUND` (lines 78-84). -/
def HAVE_FAST_ROUND (predefined : Option Int) (t : Target) : Int :=
  match predefined with
  | some v => v
  | none => if ppValue t.__aarch64__ ≠ 0 then 1 else 0

/-- The macro `HAVE_FAST_LROUND` (lines 87-93). -/
def HAVE_FAST_LROUND (predefined : Option Int) (t : Target) : Int :=
  match predefined with
  | some v => v
  | none =>
    if ppValue t.__aarch64__ ≠ 0 ∧
        100 * ppValue t.__GNUC__ + ppValue t.__GNUC_MINOR__ ≥ 408 ∧
        ppValue t.__NO_MATH_ERRNO__ ≠ 0 then 1 else 0

/-- The macro `HAVE_FAST_FMA` (lines 96-102). -/
def HAVE_FAST_FMA (predefined : Option Int) (t : Target) : Int :=
  match predefined with
  | some v => v
  | none =>
    if ppValue t.__aarch64__ ≠ 0 ∨
        (ppValue t.__ARM_FEATURE_FMA ≠ 0 ∧ Int.land (ppValue t.__ARM_FP) 8 ≠ 0) ∨
        ppValue t.__riscv_flen ≥ 64 then 1 else 0

/-- The macro `HAVE_FAST_FMAF` (lines 104-110), with the resolved value of
`HAVE_FAST_FMA` as second argument. -/
def HAVE_FAST_FMAF (predefined : Option Int) (have_fast_fma : Int) (t : Target) : Int :=
  match predefined with
  | some v => v
  | none =>
    if have_fast_fma ≠ 0 ∨
        (ppValue t.__ARM_FEATURE_FMA ≠ 0 ∧ Int.land (ppValue t.__ARM_FP) 4 ≠ 0) ∨
        ppValue t.__riscv_flen ≥ 32 then 1 else 0

/-- The macro `TOINT_INTRINSICS` (lines 112-115 and 140-142): defined as 1 under
`#if HAVE_FAST_ROUND`, and as 0 by the `#ifndef` that follows when nothing has
defined it. -/
def TOINT_INTRINSICS (predefined : Option Int) (have_fast_round : Int) : Int :=
  if have_fast_round ≠ 0 then 1 else predefined.getD 0

/-- The macro `POWF_SCALE_BITS` (lines 471-475). -/
def POWF_SCALE_BITS (toint_intrinsics : Int) : Nat :=
  if toint_intrinsics ≠ 0 then EXP2F_TABLE_BITS else 0

/-- The macro `POWF_SCALE`: `((double) (1 << POWF_SCALE_BITS))`. The integer is
small, so the conversion to `double` is exact and the value is this integer. -/
def POWF_SCALE (toint_intrinsics : Int) : Nat := 1 <<< POWF_SCALE_BITS toint_intrinsics

/-! ## Rounding helpers (`math_config.h` lines 112-138) -/

/-- The finite values of the C type `double_t`, as the rational numbers they
denote. -/
abbrev double_t := ℚ

/-- Modelled from the spec: the libm function `round`, only declared through
`<math.h>`. It rounds to the nearest integer value, ties half away from zero. -/
def round (x : double_t) : double_t :=
  if 0 ≤ x then ((⌊x + 1 / 2⌋ : Int) : ℚ) else -((⌊-x + 1 / 2⌋ : Int) : ℚ)

/-- Modelled from the spec: the libm function `lround`, only declared through
`<math.h>`. It rounds to the nearest integer, ties half away from zero, and
returns it as a `long`. -/
def lround (x : double_t) : Int :=
  if 0 ≤ x then ⌊x + 1 / 2⌋ else -⌊-x + 1 / 2⌋

/-- The cast `(long) d` of a floating value: the fractional part is discarded
(truncation toward zero). -/
def toLong (d : double_t) : Int := if 0 ≤ d then ⌊d⌋ else ⌈d⌉

/-- The function `roundtoint`: `round (x)`. It exists only under
`#if HAVE_FAST_ROUND`; `none` stands for "not declared". -/
def roundtoint (have_fast_round : Int) (x : double_t) : Option double_t :=
  if have_fast_round ≠ 0 then some (round x) else none

/-- The function `converttoint`: `lround (x)` under `#if HAVE_FAST_LROUND`,
`(long) round (x)` otherwise, converted to the `int32_t` return type. It exists
only under `#if HAVE_FAST_ROUND`; `none` stands for "not declared". -/
def converttoint (have_fast_round have_fast_lround : Int) (x : double_t) : Option Int :=
  if have_fast_round ≠ 0 then
    some (if have_fast_lround ≠ 0 then toInt32 (lround x) else toInt32 (toLong (round x)))
  else none

/-! ## Computation barriers (`math_config.h` lines 293-350) -/

/-- The function `opt_barrier_float`: `FORCE_FLOAT y = x; return y;`. With
`PICOLIBC_FLOAT_NOEXCEPT` defined `y` is a plain temporary; otherwise `y` is a
`volatile float`, so the object representation of `x` is written to the object
`y` and read back from it. -/
def opt_barrier_float (float_noexcept : Bool) (x : float) : float :=
  if float_noexcept then
    let y : float := x
    y
  else
    let y : Nat := asuint x
    asfloat y

/-- The function `opt_barrier_double`: `FORCE_DOUBLE y = x; return y;`, with a
plain temporary under `PICOLIBC_DOUBLE_NOEXCEPT` and a `volatile double`
otherwise. -/
def opt_barrier_double (double_noexcept : Bool) (x : double) : double :=
  if double_noexcept then
    let y : double := x
    y
  else
    let y : Nat := asuint64 x
    asdouble y

/-- The function `eval_as_float`: `return x;`. -/
def eval_as_float (x : float) : float := x

/-- The function `eval_as_double`: `return x;`. -/
def eval_as_double (x : double) : double := x

/-! ## Overflow reporters (`math_config.h` lines 359-377, declarations only) -/

/-- Modelled from the spec: the overflow range error code that the reporters
store in the error indicator (`ERANGE` of `<errno.h>`). -/
def ERANGE : Int := 34

/-- Modelled from the spec: the reporter `__math_oflowf`, only declared in the
header. It returns the correctly signed infinity (negative when the sign
argument is nonzero) and, when the errno policy is active, sets the error
indicator to the overflow range error. -/
def __math_oflowf (want_errno : Int) (sign : Nat) (w : Env) : float × Env :=
  (asfloat (if sign ≠ 0 then 0xff800000 else 0x7f800000),
   if want_errno ≠ 0 then { w with errno := ERANGE } else w)

/-- Modelled from the spec: the reporter `__math_oflow`, only declared in the
header. It returns the correctly signed infinity (negative when the sign
argument is nonzero) and, when the errno policy is active, sets the error
indicator to the overflow range error. -/
def __math_oflow (want_errno : Int) (sign : Nat) (w : Env) : double × Env :=
  (asdouble (if sign ≠ 0 then 0xfff0000000000000 else 0x7ff0000000000000),
   if want_errno ≠ 0 then { w with errno := ERANGE } else w)

/-! ## Auxiliary facts about bitwise operations on naturals -/

theorem xor_block (a b k : Nat) :
    a ^^^ b = 2 ^ k * (a / 2 ^ k ^^^ b / 2 ^ k) + (a % 2 ^ k ^^^ b % 2 ^ k) := by
  apply Nat.eq_of_testBit_eq
  intro j
  have hlt : a % 2 ^ k ^^^ b % 2 ^ k < 2 ^ k :=
    Nat.xor_lt_two_pow (Nat.mod_lt _ (Nat.two_pow_pos k)) (Nat.mod_lt _ (Nat.two_pow_pos k))
  rw [Nat.testBit_mul_pow_two_add _ hlt]
  by_cases h : j < k
  · simp [h, Nat.testBit_mod_two_pow]
  · have hj : k + (j - k) = j := by omega
    simp [h, ← Nat.shiftRight_eq_div_pow, Nat.testBit_shiftRight, hj]

theorem and_block (a b k : Nat) :
    a &&& b = 2 ^ k * (a / 2 ^ k &&& b / 2 ^ k) + (a % 2 ^ k &&& b % 2 ^ k) := by
  apply Nat.eq_of_testBit_eq
  intro j
  have hlt : a % 2 ^ k &&& b % 2 ^ k < 2 ^ k :=
    Nat.and_lt_two_pow _ (Nat.mod_lt _ (Nat.two_pow_pos k))
  rw [Nat.testBit_mul_pow_two_add _ hlt]
  by_cases h : j < k
  · simp [h, Nat.testBit_mod_two_pow]
  · have hj : k + (j - k) = j := by omega
    simp [h, ← Nat.shiftRight_eq_div_pow, Nat.testBit_shiftRight, hj]

theorem xor_one_eq (h : Nat) : h ^^^ 1 = if h % 2 = 0 then h + 1 else h - 1 := by
  have hb := xor_block h 1 1
  have h2 : h % 2 = 0 ∨ h % 2 = 1 := by omega
  rcases h2 with h0 | h1
  · simp [h0] at hb ⊢
    omega
  · simp [h1] at hb ⊢
    omega

theorem xor_two_pow_eq (x k : Nat) :
    x ^^^ 2 ^ k = if x / 2 ^ k % 2 = 0 then x + 2 ^ k else x - 2 ^ k := by
  have hb := xor_block x (2 ^ k) k
  have hp : 0 < 2 ^ k := Nat.two_pow_pos k
  have hd := Nat.div_add_mod x (2 ^ k)
  rw [Nat.div_self hp, Nat.mod_self, Nat.xor_zero, xor_one_eq] at hb
  rw [hb]
  generalize x / 2 ^ k = q at hd ⊢
  generalize x % 2 ^ k = r at hd ⊢
  generalize 2 ^ k = p at hd hp ⊢
  by_cases h : q % 2 = 0
  · simp only [h, if_true]
    rw [Nat.mul_add, Nat.mul_one]
    omega
  · simp only [h, if_false]
    obtain ⟨q, rfl⟩ : ∃ t, q = t + 1 := ⟨q - 1, by omega⟩
    rw [Nat.add_sub_cancel]
    rw [Nat.mul_add, Nat.mul_one] at hd
    omega

/-! ## Masking a two's-complement integer -/

theorem ldiff_mask (n k : Nat) : Nat.ldiff (2 ^ k - 1) n = 2 ^ k - (n % 2 ^ k + 1) := by
  apply Nat.eq_of_testBit_eq
  intro j
  rw [Nat.testBit_ldiff, Nat.testBit_two_pow_sub_one,
    Nat.testBit_two_pow_sub_succ (Nat.mod_lt _ (Nat.two_pow_pos k)), Nat.testBit_mod_two_pow]
  by_cases h : j < k <;> simp [h]

theorem land_mask (a : Int) (k : Nat) :
    Int.land a ((2 ^ k - 1 : Nat) : Int) = a % ((2 ^ k : Nat) : Int) := by
  cases a with
  | ofNat n =>
    show ((n &&& (2 ^ k - 1) : Nat) : Int) = _
    rw [Nat.and_pow_two_sub_one_eq_mod]
    rfl
  | negSucc n =>
    show ((Nat.ldiff (2 ^ k - 1) n : Nat) : Int) = _
    rw [ldiff_mask, Int.negSucc_emod _ (by exact_mod_cast Nat.two_pow_pos k)]
    have h1 : n % 2 ^ k < 2 ^ k := Nat.mod_lt _ (Nat.two_pow_pos k)
    rw [← Int.natCast_mod]
    generalize n % 2 ^ k = r at h1 ⊢
    generalize 2 ^ k = p at h1 ⊢
    omega

/-! ## Round trip of the bit reinterpretation -/

theorem asuint_asfloat_of_lt (b : Nat) (hb : b < 2 ^ 32) : asuint (asfloat b) = b := by
  simp only [asuint, asfloat]
  omega

theorem asfloat_asuint_eq (x : float) : asfloat (asuint x) = x := by
  obtain ⟨⟨s, hs⟩, ⟨e, he⟩, ⟨m, hm⟩⟩ := x
  simp only [asuint, asfloat, float.mk.injEq, Fin.mk.injEq]
  norm_num at hm
  refine ⟨?_, ?_, ?_⟩ <;> omega

theorem asuint_lt (x : float) : asuint x < 2 ^ 32 := by
  obtain ⟨⟨s, hs⟩, ⟨e, he⟩, ⟨m, hm⟩⟩ := x
  simp only [asuint]
  norm_num at hm
  omega

theorem asuint64_asdouble_of_lt (b : Nat) (hb : b < 2 ^ 64) : asuint64 (asdouble b) = b := by
  simp only [asuint64, asdouble]
  omega

theorem asdouble_asuint64_eq (x : double) : asdouble (asuint64 x) = x := by
  obtain ⟨⟨s, hs⟩, ⟨e, he⟩, ⟨m, hm⟩⟩ := x
  simp only [asuint64, asdouble, double.mk.injEq, Fin.mk.injEq]
  norm_num at hm
  refine ⟨?_, ?_, ?_⟩ <;> omega

theorem asuint64_lt (x : double) : asuint64 x < 2 ^ 64 := by
  obtain ⟨⟨s, hs⟩, ⟨e, he⟩, ⟨m, hm⟩⟩ := x
  simp only [asuint64]
  norm_num at hm
  omega

/-! ## Signaling-NaN tests as arithmetic on the bit pattern -/

theorem snan2008_test32 (ix : Nat) (hix : ix < 2 ^ 32) :
    (2 * (ix ^^^ 0x00400000)) % 2 ^ 32 > 0xFF800000 ↔
      (ix / 2 ^ 23 % 256 = 0xff ∧ ix / 2 ^ 22 % 2 = 0 ∧ ix % 2 ^ 22 ≠ 0) := by
  have hx := xor_two_pow_eq ix 22
  norm_num at hx hix ⊢
  rw [hx]
  split <;> omega

theorem snan2008_test64 (ix : Nat) (hix : ix < 2 ^ 64) :
    (2 * (ix ^^^ 0x0008000000000000)) % 2 ^ 64 > (2 * 0x7ff8000000000000) % 2 ^ 64 ↔
      (ix / 2 ^ 52 % 2048 = 0x7ff ∧ ix / 2 ^ 51 % 2 = 0 ∧ ix % 2 ^ 51 ≠ 0) := by
  have hx := xor_two_pow_eq ix 51
  norm_num at hx hix ⊢
  rw [hx]
  split <;> omega

theorem legacy_test32 (ix : Nat) :
    ix &&& 0x7fc00000 = 0x7fc00000 ↔ (ix / 2 ^ 23 % 256 = 0xff ∧ ix / 2 ^ 22 % 2 = 1) := by
  have hb := and_block ix 0x7fc00000 22
  have hm : ix / 2 ^ 22 &&& 2 ^ 9 - 1 = ix / 2 ^ 22 % 2 ^ 9 :=
    Nat.and_pow_two_sub_one_eq_mod _ 9
  norm_num at hb hm ⊢
  rw [hb, hm]
  omega

theorem legacy_test64 (ix : Nat) :
    ix &&& 0x7ff8000000000000 = 0x7ff8000000000000 ↔
      (ix / 2 ^ 52 % 2048 = 0x7ff ∧ ix / 2 ^ 51 % 2 = 1) := by
  have hb := and_block ix 0x7ff8000000000000 51
  have hm : ix / 2 ^ 51 &&& 2 ^ 12 - 1 = ix / 2 ^ 51 % 2 ^ 12 :=
    Nat.and_pow_two_sub_one_eq_mod _ 12
  norm_num at hb hm ⊢
  rw [hb, hm]
  omega

theorem issignalingf_inline_ne_zero (snan : Int) (x : float) :
    issignalingf_inline snan x ≠ 0 ↔
      if snan = 0 then asuint x &&& 0x7fc00000 = 0x7fc00000
      else (2 * (asuint x ^^^ 0x00400000)) % 2 ^ 32 > 0xFF800000 := by
  unfold issignalingf_inline
  by_cases h : snan = 0
  · by_cases h1 : asuint x &&& 0x7fc00000 = 0x7fc00000 <;> simp [h, h1]
  · by_cases h1 : (2 * (asuint x ^^^ 0x00400000)) % 2 ^ 32 > 0xFF800000 <;> simp [h, h1]

theorem issignaling_inline_ne_zero (snan : Int) (x : double) :
    issignaling_inline snan x ≠ 0 ↔
      if snan = 0 then asuint64 x &&& 0x7ff8000000000000 = 0x7ff8000000000000
      else (2 * (asuint64 x ^^^ 0x0008000000000000)) % 2 ^ 64
        > (2 * 0x7ff8000000000000) % 2 ^ 64 := by
  unfold issignaling_inline
  by_cases h : snan = 0
  · by_cases h1 : asuint64 x &&& 0x7ff8000000000000 = 0x7ff8000000000000 <;> simp [h, h1]
  · by_cases h1 : (2 * (asuint64 x ^^^ 0x0008000000000000)) % 2 ^ 64
        > (2 * 0x7ff8000000000000) % 2 ^ 64 <;> simp [h, h1]

/-! ## Claims about the signaling-NaN tests -/

/-- C1: with `IEEE_754_2008_SNAN` nonzero, for every 32-bit pattern `ix`,
`issignalingf_inline (asfloat ix)` is nonzero exactly when the exponent field
(bits 23..30) is `0xff`, bit 22 is `0` and the low 22 mantissa bits are not all
zero; the product `2 * (ix ^ 0x00400000)` is reduced modulo `2^32`. -/
theorem issignalingf_inline_2008 (snan : Int) (hs : snan ≠ 0) (ix : Nat) (hix : ix < 2 ^ 32) :
    issignalingf_inline snan (asfloat ix) ≠ 0 ↔
      (ix / 2 ^ 23 % 256 = 0xff ∧ ix / 2 ^ 22 % 2 = 0 ∧ ix % 2 ^ 22 ≠ 0) := by
  rw [issignalingf_inline_ne_zero, if_neg hs, asuint_asfloat_of_lt ix hix]
  exact snan2008_test32 ix hix

theorem issignalingf_inline_2008_witness :
    IEEE_754_2008_SNAN none ≠ 0 ∧ 0x7fa00000 < 2 ^ 32 ∧
      (issignalingf_inline (IEEE_754_2008_SNAN none) (asfloat 0x7fa00000) ≠ 0 ↔
        (0x7fa00000 / 2 ^ 23 % 256 = 0xff ∧ 0x7fa00000 / 2 ^ 22 % 2 = 0 ∧
          0x7fa00000 % 2 ^ 22 ≠ 0)) :=
  ⟨by decide, by decide,
    issignalingf_inline_2008 (IEEE_754_2008_SNAN none) (by decide) 0x7fa00000 (by decide)⟩

/-- C2: with `IEEE_754_2008_SNAN` nonzero, for every 64-bit pattern `ix`,
`issignaling_inline (asdouble ix)` is nonzero exactly when the exponent field
(bits 52..62) is `0x7ff`, bit 51 is `0` and the low 51 mantissa bits are not all
zero; both products are reduced modulo `2^64`. -/
theorem issignaling_inline_2008 (snan : Int) (hs : snan ≠ 0) (ix : Nat) (hix : ix < 2 ^ 64) :
    issignaling_inline snan (asdouble ix) ≠ 0 ↔
      (ix / 2 ^ 52 % 2048 = 0x7ff ∧ ix / 2 ^ 51 % 2 = 0 ∧ ix % 2 ^ 51 ≠ 0) := by
  rw [issignaling_inline_ne_zero, if_neg hs, asuint64_asdouble_of_lt ix hix]
  exact snan2008_test64 ix hix

theorem issignaling_inline_2008_witness :
    IEEE_754_2008_SNAN none ≠ 0 ∧ 0xfff4000000000001 < 2 ^ 64 ∧
      (issignaling_inline (IEEE_754_2008_SNAN none) (asdouble 0xfff4000000000001) ≠ 0 ↔
        (0xfff4000000000001 / 2 ^ 52 % 2048 = 0x7ff ∧ 0xfff4000000000001 / 2 ^ 51 % 2 = 0 ∧
          0xfff4000000000001 % 2 ^ 51 ≠ 0)) :=
  ⟨by decide, by decide,
    issignaling_inline_2008 (IEEE_754_2008_SNAN none) (by decide) 0xfff4000000000001
      (by decide)⟩

/-- C3 as stated fails: with `IEEE_754_2008_SNAN = 0` the pattern `0x7f800000`
(+infinity: exponent all-ones, bit 22 equal to 0) is not reported as signaling
by `issignalingf_inline`, and neither is `0x7ff0000000000000` by
`issignaling_inline`. -/
theorem issignaling_legacy_counterexample :
    ¬ ((issignalingf_inline 0 (asfloat 0x7f800000) ≠ 0 ↔
          (0x7f800000 / 2 ^ 23 % 256 = 0xff ∧ 0x7f800000 / 2 ^ 22 % 2 = 0)) ∧
       (issignaling_inline 0 (asdouble 0x7ff0000000000000) ≠ 0 ↔
          (0x7ff0000000000000 / 2 ^ 52 % 2048 = 0x7ff ∧
            0x7ff0000000000000 / 2 ^ 51 % 2 = 0))) := by
  decide

/-- C3 (amended): with `IEEE_754_2008_SNAN = 0`, for every 32-bit pattern
`issignalingf_inline`, and for every 64-bit pattern `issignaling_inline`, is
nonzero exactly when the exponent field is all-ones and the most-significant
mantissa bit (bit 22, respectively bit 51) is 1. -/
theorem issignaling_legacy (ix jx : Nat) (hix : ix < 2 ^ 32) (hjx : jx < 2 ^ 64) :
    (issignalingf_inline 0 (asfloat ix) ≠ 0 ↔
        (ix / 2 ^ 23 % 256 = 0xff ∧ ix / 2 ^ 22 % 2 = 1)) ∧
    (issignaling_inline 0 (asdouble jx) ≠ 0 ↔
        (jx / 2 ^ 52 % 2048 = 0x7ff ∧ jx / 2 ^ 51 % 2 = 1)) := by
  constructor
  · rw [issignalingf_inline_ne_zero, if_pos rfl, asuint_asfloat_of_lt ix hix]
    exact legacy_test32 ix
  · rw [issignaling_inline_ne_zero, if_pos rfl, asuint64_asdouble_of_lt jx hjx]
    exact legacy_test64 jx

theorem issignaling_legacy_witness :
    0x7fc00000 < 2 ^ 32 ∧ 0x7ff0000000000000 < 2 ^ 64 ∧
    (issignalingf_inline 0 (asfloat 0x7fc00000) ≠ 0 ↔
        (0x7fc00000 / 2 ^ 23 % 256 = 0xff ∧ 0x7fc00000 / 2 ^ 22 % 2 = 1)) ∧
    (issignaling_inline 0 (asdouble 0x7ff0000000000000) ≠ 0 ↔
        (0x7ff0000000000000 / 2 ^ 52 % 2048 = 0x7ff ∧
          0x7ff0000000000000 / 2 ^ 51 % 2 = 1)) :=
  ⟨by decide, by decide,
    issignaling_legacy 0x7fc00000 0x7ff0000000000000 (by decide) (by decide)⟩

/-- C4: under both policies (every value of `IEEE_754_2008_SNAN`), for every
32-bit and every 64-bit pattern that does not encode a NaN (exponent field not
all-ones, or exponent all-ones with an all-zero mantissa), `issignalingf_inline`
and `issignaling_inline` return 0. -/
theorem issignaling_non_nan (snan : Int) :
    (∀ ix : Nat, ix < 2 ^ 32 →
      (ix / 2 ^ 23 % 256 ≠ 0xff ∨ (ix / 2 ^ 23 % 256 = 0xff ∧ ix % 2 ^ 23 = 0)) →
      issignalingf_inline snan (asfloat ix) = 0) ∧
    (∀ jx : Nat, jx < 2 ^ 64 →
      (jx / 2 ^ 52 % 2048 ≠ 0x7ff ∨ (jx / 2 ^ 52 % 2048 = 0x7ff ∧ jx % 2 ^ 52 = 0)) →
      issignaling_inline snan (asdouble jx) = 0) := by
  constructor
  · intro ix hix hnan
    by_contra hne
    have hne := (issignalingf_inline_ne_zero snan (asfloat ix)).1 hne
    rw [asuint_asfloat_of_lt ix hix] at hne
    by_cases hs : snan = 0
    · rw [if_pos hs, legacy_test32] at hne
      omega
    · rw [if_neg hs, snan2008_test32 ix hix] at hne
      omega
  · intro jx hjx hnan
    by_contra hne
    have hne := (issignaling_inline_ne_zero snan (asdouble jx)).1 hne
    rw [asuint64_asdouble_of_lt jx hjx] at hne
    by_cases hs : snan = 0
    · rw [if_pos hs, legacy_test64] at hne
      omega
    · rw [if_neg hs, snan2008_test64 jx hjx] at hne
      omega

theorem issignaling_non_nan_witness :
    issignalingf_inline 1 (asfloat 0xff800000) = 0 ∧
    issignaling_inline 0 (asdouble 0x7ff0000000000000) = 0 :=
  ⟨(issignaling_non_nan 1).1 0xff800000 (by decide) (by decide),
   (issignaling_non_nan 0).2 0x7ff0000000000000 (by decide) (by decide)⟩

/-! ## Claims about the bit reinterpretation -/

/-- C5: round-trip law. For every 32-bit pattern `b`, `asuint (asfloat b) = b`;
for every float `x`, `asfloat (asuint x)` is `x` itself (same sign, exponent and
mantissa bits, NaN payloads and negative zero included); likewise for
`asuint64` / `asdouble`. Hence `asuint` is a bijection from the floats onto the
patterns below `2^32`, and `asuint64` from the doubles onto those below `2^64`. -/
theorem bit_reinterpretation_round_trip :
    (∀ b : Nat, b < 2 ^ 32 → asuint (asfloat b) = b) ∧
    (∀ x : float, asfloat (asuint x) = x) ∧
    (∀ b : Nat, b < 2 ^ 64 → asuint64 (asdouble b) = b) ∧
    (∀ x : double, asdouble (asuint64 x) = x) ∧
    Set.BijOn asuint Set.univ {b | b < 2 ^ 32} ∧
    Set.BijOn asuint64 Set.univ {b | b < 2 ^ 64} := by
  refine ⟨asuint_asfloat_of_lt, asfloat_asuint_eq, asuint64_asdouble_of_lt,
    asdouble_asuint64_eq, ⟨?_, ?_, ?_⟩, ⟨?_, ?_, ?_⟩⟩
  · intro x _
    exact asuint_lt x
  · intro x _ y _ hxy
    rw [← asfloat_asuint_eq x, ← asfloat_asuint_eq y, hxy]
  · intro b hb
    exact ⟨asfloat b, Set.mem_univ _, asuint_asfloat_of_lt b hb⟩
  · intro x _
    exact asuint64_lt x
  · intro x _ y _ hxy
    rw [← asdouble_asuint64_eq x, ← asdouble_asuint64_eq y, hxy]
  · intro b hb
    exact ⟨asdouble b, Set.mem_univ _, asuint64_asdouble_of_lt b hb⟩

theorem bit_reinterpretation_round_trip_witness :
    asuint (asfloat 0xffc12345) = 0xffc12345 ∧
    asuint64 (asdouble 0x8000000000000000) = 0x8000000000000000 :=
  ⟨bit_reinterpretation_round_trip.1 0xffc12345 (by decide),
   bit_reinterpretation_round_trip.2.2.1 0x8000000000000000 (by decide)⟩

/-! ## Field extraction in terms of the unsigned bit pattern -/

theorem sign32_eq (ix : Int) :
    _sign32 ix = ((toUInt32 ix / 2 ^ 31 : Nat) : Int) := by
  simp only [_sign32, toInt32, toUInt32, Nat.shiftRight_eq_div_pow]
  omega

theorem exponent32_eq (ix : Int) :
    _exponent32 ix = ((toUInt32 ix / 2 ^ 23 % 2 ^ 8 : Nat) : Int) := by
  have hm := land_mask (ix >>> (23 : Nat)) 8
  rw [Int.shiftRight_eq_div_pow] at hm
  norm_num at hm
  simp only [_exponent32, toUInt32, Int.shiftRight_eq_div_pow]
  norm_num
  rw [hm]
  omega

theorem significand32_eq (ix : Int) :
    _significand32 ix = ((toUInt32 ix % 2 ^ 23 : Nat) : Int) := by
  have hm := land_mask ix 23
  norm_num at hm
  simp only [_significand32, toUInt32]
  norm_num
  rw [hm]
  omega

theorem sign64_eq (ix : Int) :
    _sign64 ix = ((toUInt64 ix / 2 ^ 63 : Nat) : Int) := by
  simp only [_sign64, toInt32, toUInt64, Nat.shiftRight_eq_div_pow]
  omega

theorem exponent64_eq (ix : Int) :
    _exponent64 ix = ((toUInt64 ix / 2 ^ 52 % 2 ^ 11 : Nat) : Int) := by
  have hm := land_mask (ix >>> (52 : Nat)) 11
  rw [Int.shiftRight_eq_div_pow] at hm
  norm_num at hm
  simp only [_exponent64, toInt32, toUInt64, Int.shiftRight_eq_div_pow]
  norm_num
  rw [hm]
  omega

theorem significand64_eq (ix : Int) :
    _significand64 ix = ((toUInt64 ix % 2 ^ 52 : Nat) : Int) := by
  have hm := land_mask ix 52
  norm_num at hm
  simp only [_significand64, toUInt64]
  norm_num
  rw [hm]
  omega

/-! ## Claims about field extraction -/

/-- C6: for every signed 32-bit value `ix`, negative ones included, with `u` the
same 32 bits read as unsigned (`u = ix + 2^32` when `ix < 0`, else `u = ix`):
`_sign32 ix = u / 2^31` (0 or 1),
`_exponent32 ix = u / 2^23 % 2^8` (the biased exponent, in 0..255), and
`_significand32 ix = u % 2^23`; no bias is removed and nothing is normalised. -/
theorem field_extraction32 (ix : Int) (hlo : -2 ^ 31 ≤ ix) (hhi : ix < 2 ^ 31) :
    ((toUInt32 ix : Nat) : Int) = (if ix < 0 then ix + 2 ^ 32 else ix) ∧
    _sign32 ix = ((toUInt32 ix / 2 ^ 31 : Nat) : Int) ∧
    (_sign32 ix = 0 ∨ _sign32 ix = 1) ∧
    _exponent32 ix = ((toUInt32 ix / 2 ^ 23 % 2 ^ 8 : Nat) : Int) ∧
    (0 ≤ _exponent32 ix ∧ _exponent32 ix ≤ 255) ∧
    _significand32 ix = ((toUInt32 ix % 2 ^ 23 : Nat) : Int) := by
  have hu : toUInt32 ix < 2 ^ 32 := by
    simp only [toUInt32]
    omega
  refine ⟨?_, sign32_eq ix, ?_, exponent32_eq ix, ?_, significand32_eq ix⟩
  · simp only [toUInt32]
    split <;> omega
  · rw [sign32_eq ix]
    omega
  · rw [exponent32_eq ix]
    omega

theorem field_extraction32_witness :
    (-2 ^ 31 ≤ (-4194303 : Int) ∧ (-4194303 : Int) < 2 ^ 31) ∧
    ((toUInt32 (-4194303) : Nat) : Int) = (if (-4194303 : Int) < 0 then -4194303 + 2 ^ 32 else -4194303) ∧
    _sign32 (-4194303) = ((toUInt32 (-4194303) / 2 ^ 31 : Nat) : Int) ∧
    (_sign32 (-4194303) = 0 ∨ _sign32 (-4194303) = 1) ∧
    _exponent32 (-4194303) = ((toUInt32 (-4194303) / 2 ^ 23 % 2 ^ 8 : Nat) : Int) ∧
    (0 ≤ _exponent32 (-4194303) ∧ _exponent32 (-4194303) ≤ 255) ∧
    _significand32 (-4194303) = ((toUInt32 (-4194303) % 2 ^ 23 : Nat) : Int) :=
  ⟨by decide, field_extraction32 (-4194303) (by decide) (by decide)⟩

/-- C7: for every signed 64-bit value `ix`, negative ones included, with `u` the
same 64 bits read as unsigned (`u = ix + 2^64` when `ix < 0`, else `u = ix`):
`_sign64 ix = u / 2^63` (0 or 1, so it fits the
`int` return type), `_exponent64 ix = u / 2^52 % 2^11` (the biased exponent, in
0..2047), and `_significand64 ix = u % 2^52`. -/
theorem field_extraction64 (ix : Int) (hlo : -2 ^ 63 ≤ ix) (hhi : ix < 2 ^ 63) :
    ((toUInt64 ix : Nat) : Int) = (if ix < 0 then ix + 2 ^ 64 else ix) ∧
    _sign64 ix = ((toUInt64 ix / 2 ^ 63 : Nat) : Int) ∧
    (_sign64 ix = 0 ∨ _sign64 ix = 1) ∧
    _exponent64 ix = ((toUInt64 ix / 2 ^ 52 % 2 ^ 11 : Nat) : Int) ∧
    (0 ≤ _exponent64 ix ∧ _exponent64 ix ≤ 2047) ∧
    _significand64 ix = ((toUInt64 ix % 2 ^ 52 : Nat) : Int) := by
  have hu : toUInt64 ix < 2 ^ 64 := by
    simp only [toUInt64]
    omega
  refine ⟨?_, sign64_eq ix, ?_, exponent64_eq ix, ?_, significand64_eq ix⟩
  · simp only [toUInt64]
    split <;> omega
  · rw [sign64_eq ix]
    omega
  · rw [exponent64_eq ix]
    omega

theorem field_extraction64_witness :
    (-2 ^ 63 ≤ (-4503599627370495 : Int) ∧ (-4503599627370495 : Int) < 2 ^ 63) ∧
    ((toUInt64 (-4503599627370495) : Nat) : Int) = (if (-4503599627370495 : Int) < 0 then -4503599627370495 + 2 ^ 64 else -4503599627370495) ∧
    _sign64 (-4503599627370495) = ((toUInt64 (-4503599627370495) / 2 ^ 63 : Nat) : Int) ∧
    (_sign64 (-4503599627370495) = 0 ∨ _sign64 (-4503599627370495) = 1) ∧
    _exponent64 (-4503599627370495) =
      ((toUInt64 (-4503599627370495) / 2 ^ 52 % 2 ^ 11 : Nat) : Int) ∧
    (0 ≤ _exponent64 (-4503599627370495) ∧ _exponent64 (-4503599627370495) ≤ 2047) ∧
    _significand64 (-4503599627370495) =
      ((toUInt64 (-4503599627370495) % 2 ^ 52 : Nat) : Int) :=
  ⟨by decide, field_extraction64 (-4503599627370495) (by decide) (by decide)⟩

theorem toUInt32_asint32 (x : float) : toUInt32 (_asint32 x) = asuint x := by
  have h := asuint_lt x
  simp only [toUInt32, _asint32, toInt32]
  omega

theorem toUInt64_asint64 (x : double) : toUInt64 (_asint64 x) = asuint64 x := by
  have h := asuint64_lt x
  simp only [toUInt64, _asint64, toInt64]
  omega

theorem asuint_negf (x : float) :
    asuint (negf x) =
      if asuint x / 2 ^ 31 % 2 = 0 then asuint x + 2 ^ 31 else asuint x - 2 ^ 31 := by
  have h := asuint_lt x
  have hx : asuint x ^^^ 0x80000000 < 2 ^ 32 := Nat.xor_lt_two_pow h (by decide)
  rw [negf, asuint_asfloat_of_lt _ hx]
  exact xor_two_pow_eq (asuint x) 31

theorem asuint64_neg (x : double) :
    asuint64 (neg x) =
      if asuint64 x / 2 ^ 63 % 2 = 0 then asuint64 x + 2 ^ 63 else asuint64 x - 2 ^ 63 := by
  have h := asuint64_lt x
  have hx : asuint64 x ^^^ 0x8000000000000000 < 2 ^ 64 := Nat.xor_lt_two_pow h (by decide)
  rw [neg, asuint64_asdouble_of_lt _ hx]
  exact xor_two_pow_eq (asuint64 x) 63

/-- C8: for every float `x` and every double `y` (every bit pattern, NaN
included), with `-x` the value whose top bit is flipped: the exponent extractor
and the significand extractor agree on `_asint32 x` and `_asint32 (-x)` (resp.
`_asint64`), while the sign extractor gives 0 on one and 1 on the other. -/
theorem negation_changes_only_sign (x : float) (y : double) :
    _exponent32 (_asint32 (negf x)) = _exponent32 (_asint32 x) ∧
    _significand32 (_asint32 (negf x)) = _significand32 (_asint32 x) ∧
    ((_sign32 (_asint32 x) = 0 ∧ _sign32 (_asint32 (negf x)) = 1) ∨
      (_sign32 (_asint32 x) = 1 ∧ _sign32 (_asint32 (negf x)) = 0)) ∧
    _exponent64 (_asint64 (neg y)) = _exponent64 (_asint64 y) ∧
    _significand64 (_asint64 (neg y)) = _significand64 (_asint64 y) ∧
    ((_sign64 (_asint64 y) = 0 ∧ _sign64 (_asint64 (neg y)) = 1) ∨
      (_sign64 (_asint64 y) = 1 ∧ _sign64 (_asint64 (neg y)) = 0)) := by
  have hx := asuint_lt x
  have hy := asuint64_lt y
  have hnx := asuint_negf x
  have hny := asuint64_neg y
  simp only [exponent32_eq, significand32_eq, sign32_eq, exponent64_eq, significand64_eq,
    sign64_eq, toUInt32_asint32, toUInt64_asint64]
  rw [hnx, hny]
  refine ⟨?_, ?_, ?_, ?_, ?_, ?_⟩ <;> split <;> omega

/-! ## Claims about the table schemas -/

/-- C9 as stated fails for `exp_data`: its `tab` array is declared with
`2*(1 << EXP_TABLE_BITS) = 256` entries, not `1 << EXP_TABLE_BITS = 128`. -/
theorem exp_data_tab_counterexample :
    Member.dimOf exp_data "tab" = some 256 ∧ 1 <<< EXP_TABLE_BITS = 128 ∧
    ¬ (Member.dimOf exp_data "tab" = some (1 <<< EXP_TABLE_BITS)) := by
  decide

/-- C9 (amended): the `tab` array of `exp2f_data`, `logf_data`, `log2f_data`,
`powf_log2_data`, `log_data`, `log2_data` and `pow_log_data` has
`1 << TABLE_BITS` entries for the table's own `TABLE_BITS` constant, whatever
`HAVE_FAST_FMA` is; the `tab` array of `exp_data` has `2 * (1 << EXP_TABLE_BITS)`
entries. -/
theorem tab_entry_counts (have_fast_fma : Int) :
    Member.dimOf exp2f_data "tab" = some (1 <<< EXP2F_TABLE_BITS) ∧
    Member.dimOf logf_data "tab" = some (1 <<< LOGF_TABLE_BITS) ∧
    Member.dimOf log2f_data "tab" = some (1 <<< LOG2F_TABLE_BITS) ∧
    Member.dimOf powf_log2_data "tab" = some (1 <<< POWF_LOG2_TABLE_BITS) ∧
    Member.dimOf exp_data "tab" = some (2 * (1 <<< EXP_TABLE_BITS)) ∧
    Member.dimOf (log_data have_fast_fma) "tab" = some (1 <<< LOG_TABLE_BITS) ∧
    Member.dimOf (log2_data have_fast_fma) "tab" = some (1 <<< LOG2_TABLE_BITS) ∧
    Member.dimOf pow_log_data "tab" = some (1 <<< POW_LOG_TABLE_BITS) := by
  refine ⟨by decide, by decide, by decide, by decide, by decide, ?_, ?_, by decide⟩
  · simp [Member.dimOf, log_data]
  · simp [Member.dimOf, log2_data]

/-! ## Claims about the errno policy -/

/-- C10: with `WANT_ERRNO = 0` (`_IEEE_LIBM` defined), for every argument `x`,
every error code `e`, every state and whatever the out-of-line functions would
do: `check_oflow`, `check_oflowf`, `check_uflow`, `__math_with_errno` and
`__math_with_errnof` return `x` itself and leave the state (the error indicator
`errno` and the count of out-of-line calls) as it was. -/
theorem errno_disabled_pass_through (x : double) (xf : float) (e : Int) (w : Env)
    (chk_oflow chk_uflow : double → Env → double × Env)
    (chk_oflowf : float → Env → float × Env)
    (with_errno : double → Int → Env → double × Env)
    (with_errnof : float → Int → Env → float × Env) :
    WANT_ERRNO true = 0 ∧
    check_oflow (WANT_ERRNO true) chk_oflow x w = (x, w) ∧
    check_oflowf (WANT_ERRNO true) chk_oflowf xf w = (xf, w) ∧
    check_uflow (WANT_ERRNO true) chk_uflow x w = (x, w) ∧
    __math_with_errno (WANT_ERRNO true) with_errno x e w = (x, w) ∧
    __math_with_errnof (WANT_ERRNO true) with_errnof xf e w = (xf, w) := by
  simp [WANT_ERRNO, check_oflow, check_oflowf, check_uflow, __math_with_errno,
    __math_with_errnof]

/-! ## Claims about feature resolution -/

/-- C11: when no architecture capability is known (`__aarch64__`,
`__ARM_FEATURE_FMA` and `__riscv_flen` undefined or zero) and none of
`HAVE_FAST_ROUND`, `HAVE_FAST_LROUND`, `HAVE_FAST_FMA`, `HAVE_FAST_FMAF` is
predefined, every capability resolves to the conservative setting: the four
flags and `TOINT_INTRINSICS` are 0, `roundtoint` and `converttoint` are not
provided, and `POWF_SCALE_BITS = 0`. -/
theorem conservative_defaults (t : Target)
    (ha : ppValue t.__aarch64__ = 0) (hf : ppValue t.__ARM_FEATURE_FMA = 0)
    (hr : ppValue t.__riscv_flen = 0) :
    HAVE_FAST_ROUND none t = 0 ∧
    HAVE_FAST_LROUND none t = 0 ∧
    HAVE_FAST_FMA none t = 0 ∧
    HAVE_FAST_FMAF none (HAVE_FAST_FMA none t) t = 0 ∧
    TOINT_INTRINSICS none (HAVE_FAST_ROUND none t) = 0 ∧
    (∀ x, roundtoint (HAVE_FAST_ROUND none t) x = none) ∧
    (∀ x, converttoint (HAVE_FAST_ROUND none t) (HAVE_FAST_LROUND none t) x = none) ∧
    POWF_SCALE_BITS (TOINT_INTRINSICS none (HAVE_FAST_ROUND none t)) = 0 := by
  have h1 : HAVE_FAST_ROUND none t = 0 := by simp [HAVE_FAST_ROUND, ha]
  have h2 : HAVE_FAST_LROUND none t = 0 := by simp [HAVE_FAST_LROUND, ha]
  have h3 : HAVE_FAST_FMA none t = 0 := by simp [HAVE_FAST_FMA, ha, hf, hr]
  have h4 : HAVE_FAST_FMAF none (HAVE_FAST_FMA none t) t = 0 := by
    rw [h3]
    simp [HAVE_FAST_FMAF, hf, hr]
  refine ⟨h1, h2, h3, h4, ?_, ?_, ?_, ?_⟩
  · simp [TOINT_INTRINSICS, h1]
  · intro x
    simp [roundtoint, h1]
  · intro x
    simp [converttoint, h1]
  · simp [TOINT_INTRINSICS, POWF_SCALE_BITS, h1]

theorem conservative_defaults_witness :
    HAVE_FAST_ROUND none ⟨none, some 12, some 2, none, none, some 12, some 0⟩ = 0 ∧
    HAVE_FAST_LROUND none ⟨none, some 12, some 2, none, none, some 12, some 0⟩ = 0 ∧
    HAVE_FAST_FMA none ⟨none, some 12, some 2, none, none, some 12, some 0⟩ = 0 ∧
    HAVE_FAST_FMAF none
      (HAVE_FAST_FMA none ⟨none, some 12, some 2, none, none, some 12, some 0⟩)
      ⟨none, some 12, some 2, none, none, some 12, some 0⟩ = 0 ∧
    TOINT_INTRINSICS none
      (HAVE_FAST_ROUND none ⟨none, some 12, some 2, none, none, some 12, some 0⟩) = 0 ∧
    (∀ x, roundtoint
      (HAVE_FAST_ROUND none ⟨none, some 12, some 2, none, none, some 12, some 0⟩) x = none) ∧
    (∀ x, converttoint
      (HAVE_FAST_ROUND none ⟨none, some 12, some 2, none, none, some 12, some 0⟩)
      (HAVE_FAST_LROUND none ⟨none, some 12, some 2, none, none, some 12, some 0⟩) x
        = none) ∧
    POWF_SCALE_BITS (TOINT_INTRINSICS none
      (HAVE_FAST_ROUND none ⟨none, some 12, some 2, none, none, some 12, some 0⟩)) = 0 :=
  conservative_defaults ⟨none, some 12, some 2, none, none, some 12, some 0⟩
    (by decide) (by decide) (by decide)

/-! ## Claims about the computation barriers -/

/-- C12: the computation barriers are the identity: `opt_barrier_float x` is
`x` and `opt_barrier_double y` is `y`, bit for bit, both with the volatile
temporary (default) and with the plain temporary (`PICOLIBC_FLOAT_NOEXCEPT` /
`PICOLIBC_DOUBLE_NOEXCEPT`); `eval_as_float` and `eval_as_double` are the
identity too. -/
theorem barriers_are_identity (float_noexcept double_noexcept : Bool)
    (x : float) (y : double) :
    opt_barrier_float float_noexcept x = x ∧
    asuint (opt_barrier_float float_noexcept x) = asuint x ∧
    opt_barrier_double double_noexcept y = y ∧
    asuint64 (opt_barrier_double double_noexcept y) = asuint64 y ∧
    eval_as_float x = x ∧
    eval_as_double y = y := by
  have hf : opt_barrier_float float_noexcept x = x := by
    cases float_noexcept
    · simp [opt_barrier_float, asfloat_asuint_eq]
    · simp [opt_barrier_float]
  have hd : opt_barrier_double double_noexcept y = y := by
    cases double_noexcept
    · simp [opt_barrier_double, asdouble_asuint64_eq]
    · simp [opt_barrier_double]
  exact ⟨hf, by rw [hf], hd, by rw [hd], rfl, rfl⟩

/-! ## Claims about the rounding helpers -/

theorem round_eq_lround (x : double_t) : round x = ((lround x : Int) : ℚ) := by
  unfold round lround
  split
  · rfl
  · push_cast
    rfl

theorem toLong_intCast (n : Int) : toLong ((n : Int) : ℚ) = n := by
  unfold toLong
  split
  · exact Int.floor_intCast n
  · exact Int.ceil_intCast n

theorem toInt32_of_mem (v : Int) (hlo : -2 ^ 31 ≤ v) (hhi : v ≤ 2 ^ 31 - 1) :
    toInt32 v = v := by
  simp only [toInt32]
  omega

theorem lround_tie (k : Int) :
    lround ((k : ℚ) + 1 / 2) = if 0 ≤ k then k + 1 else k := by
  unfold lround
  by_cases hk : 0 ≤ k
  · have hq : (0 : ℚ) ≤ (k : ℚ) := by exact_mod_cast hk
    have hx : (0 : ℚ) ≤ (k : ℚ) + 1 / 2 := by linarith
    rw [if_pos hx, if_pos hk]
    have : (k : ℚ) + 1 / 2 + 1 / 2 = ((k + 1 : Int) : ℚ) := by push_cast; ring
    rw [this, Int.floor_intCast]
  · have hk1 : k ≤ -1 := by omega
    have hq : (k : ℚ) ≤ -1 := by exact_mod_cast hk1
    have hx : ¬ (0 : ℚ) ≤ (k : ℚ) + 1 / 2 := by
      intro h
      linarith
    rw [if_neg hx, if_neg hk]
    have : -((k : ℚ) + 1 / 2) + 1 / 2 = ((-k : Int) : ℚ) := by push_cast; ring
    rw [this, Int.floor_intCast]
    omega

/-- C13: when `TOINT_INTRINSICS` is set, for every `x` whose rounded value lies
in `[-2^31, 2^31-1]`, `converttoint x` and `roundtoint x` are both provided and
are the same integer, for both variants of `converttoint` (`lround (x)` when
`HAVE_FAST_LROUND`, `(long) round (x)` otherwise); a tie `k + 1/2` goes half away
from zero in both (to `k + 1` when `k >= 0`, to `k` when `k < 0`). -/
theorem converttoint_eq_roundtoint (have_fast_round have_fast_lround : Int)
    (hT : TOINT_INTRINSICS none have_fast_round ≠ 0) (x : double_t)
    (hlo : -2 ^ 31 ≤ round x) (hhi : round x ≤ 2 ^ 31 - 1) :
    ∃ (c : Int) (r : double_t),
      converttoint have_fast_round have_fast_lround x = some c ∧
      roundtoint have_fast_round x = some r ∧
      (c : ℚ) = r ∧
      (∀ k : Int, x = (k : ℚ) + 1 / 2 → c = if 0 ≤ k then k + 1 else k) := by
  have hr : have_fast_round ≠ 0 := by
    intro h
    simp [TOINT_INTRINSICS, h] at hT
  have hl := round_eq_lround x
  rw [hl] at hlo hhi
  have hlo1 : -2 ^ 31 ≤ lround x := by exact_mod_cast hlo
  have hhi1 : lround x ≤ 2 ^ 31 - 1 := by exact_mod_cast hhi
  have hc : (if have_fast_lround ≠ 0 then toInt32 (lround x)
      else toInt32 (toLong (round x))) = lround x := by
    split
    · exact toInt32_of_mem _ hlo1 hhi1
    · rw [hl, toLong_intCast]
      exact toInt32_of_mem _ hlo1 hhi1
  refine ⟨lround x, round x, ?_, ?_, hl.symm, ?_⟩
  · simp only [converttoint, if_pos hr, hc]
  · simp only [roundtoint, if_pos hr]
  · intro k hk
    rw [hk]
    exact lround_tie k

theorem converttoint_eq_roundtoint_witness :
    ∃ (c : Int) (r : double_t),
      converttoint 1 0 (-5 / 2) = some c ∧
      roundtoint 1 (-5 / 2) = some r ∧
      (c : ℚ) = r ∧
      (∀ k : Int, (-5 / 2 : ℚ) = (k : ℚ) + 1 / 2 → c = if 0 ≤ k then k + 1 else k) :=
  converttoint_eq_roundtoint 1 0 (by decide) (-5 / 2) (by norm_num [round])
    (by norm_num [round])

/-! ## Claims about the overflow reporters and the errno policy -/

/-- C14: `__math_oflowf sign` and `__math_oflow sign` return +infinity when
`sign = 0` and -infinity when `sign` is nonzero (sign field 0 resp. 1, exponent
all-ones, mantissa zero), for every sign argument; with the errno policy active
they set the error indicator to the overflow range error, and with the policy
disabled they leave the state unchanged. -/
theorem overflow_reporters (want_errno : Int) (sign : Nat) (w : Env) :
    (__math_oflowf want_errno sign w).1
      = ⟨if sign = 0 then 0 else 1, 255, 0⟩ ∧
    (__math_oflow want_errno sign w).1
      = ⟨if sign = 0 then 0 else 1, 2047, 0⟩ ∧
    (__math_oflowf want_errno 1 w).1 = ⟨1, 255, 0⟩ ∧
    (__math_oflow want_errno 1 w).1 = ⟨1, 2047, 0⟩ ∧
    (__math_oflowf want_errno sign w).2.errno
      = (if want_errno ≠ 0 then ERANGE else w.errno) ∧
    (__math_oflow want_errno sign w).2.errno
      = (if want_errno ≠ 0 then ERANGE else w.errno) ∧
    (__math_oflowf (WANT_ERRNO true) sign w).2 = w ∧
    (__math_oflow (WANT_ERRNO true) sign w).2 = w ∧
    (__math_oflowf (WANT_ERRNO false) sign w).2.errno = ERANGE ∧
    (__math_oflow (WANT_ERRNO false) sign w).2.errno = ERANGE := by
  have hp : asfloat 0x7f800000 = ⟨0, 255, 0⟩ := by decide
  have hn : asfloat 0xff800000 = ⟨1, 255, 0⟩ := by decide
  have hpd : asdouble 0x7ff0000000000000 = ⟨0, 2047, 0⟩ := by decide
  have hnd : asdouble 0xfff0000000000000 = ⟨1, 2047, 0⟩ := by decide
  refine ⟨?_, ?_, ?_, ?_, ?_, ?_, ?_, ?_, ?_, ?_⟩
  · by_cases h : sign = 0
    · simp only [__math_oflowf, h, ne_eq, not_true_eq_false, if_false, if_true]
      exact hp
    · simp only [__math_oflowf, h, ne_eq, not_false_eq_true, if_false, if_true]
      exact hn
  · by_cases h : sign = 0
    · simp only [__math_oflow, h, ne_eq, not_true_eq_false, if_false, if_true]
      exact hpd
    · simp only [__math_oflow, h, ne_eq, not_false_eq_true, if_false, if_true]
      exact hnd
  · exact hn
  · exact hnd
  · by_cases h : want_errno = 0 <;> simp [__math_oflowf, h]
  · by_cases h : want_errno = 0 <;> simp [__math_oflow, h]
  · simp [__math_oflowf, WANT_ERRNO]
  · simp [__math_oflow, WANT_ERRNO]
  · simp [__math_oflowf, WANT_ERRNO]
  · simp [__math_oflow, WANT_ERRNO]

/-- C15: `WANT_ERRNO` is 0 exactly when `_IEEE_LIBM` is defined and 1 otherwise;
when `WANT_ERRNO_UFLOW` is not overridden it is on if and only if both
`WANT_ROUNDING` and `WANT_ERRNO` are on; hence in every `_IEEE_LIBM` build with
no override the underflow-errno flag is off whatever `WANT_ROUNDING` is. -/
theorem errno_policy_resolution (ieee_libm_defined : Bool)
    (rounding_predefined : Option Int) (want_rounding want_errno : Int) :
    (WANT_ERRNO ieee_libm_defined = 0 ↔ ieee_libm_defined = true) ∧
    (WANT_ERRNO ieee_libm_defined = 1 ↔ ieee_libm_defined = false) ∧
    (WANT_ERRNO_UFLOW none want_rounding want_errno ≠ 0 ↔
      (want_rounding ≠ 0 ∧ want_errno ≠ 0)) ∧
    WANT_ERRNO_UFLOW none (WANT_ROUNDING rounding_predefined) (WANT_ERRNO true) = 0 := by
  refine ⟨?_, ?_, ?_, ?_⟩
  · cases ieee_libm_defined <;> simp [WANT_ERRNO]
  · cases ieee_libm_defined <;> simp [WANT_ERRNO]
  · by_cases h1 : want_rounding = 0 <;> by_cases h2 : want_errno = 0 <;>
      simp [WANT_ERRNO_UFLOW, h1, h2]
  · simp [WANT_ERRNO_UFLOW, WANT_ERRNO]

/-! ## Further claims about the signaling-NaN tests -/

theorem issignalingf_inline_eq_of_iff (s1 s2 : Int) (x y : float)
    (h : issignalingf_inline s1 x ≠ 0 ↔ issignalingf_inline s2 y ≠ 0) :
    issignalingf_inline s1 x = issignalingf_inline s2 y := by
  have hx : issignalingf_inline s1 x = 0 ∨ issignalingf_inline s1 x = 1 := by
    unfold issignalingf_inline
    simp only []
    split <;> split <;> simp
  have hy : issignalingf_inline s2 y = 0 ∨ issignalingf_inline s2 y = 1 := by
    unfold issignalingf_inline
    simp only []
    split <;> split <;> simp
  omega

theorem issignaling_inline_eq_of_iff (s1 s2 : Int) (x y : double)
    (h : issignaling_inline s1 x ≠ 0 ↔ issignaling_inline s2 y ≠ 0) :
    issignaling_inline s1 x = issignaling_inline s2 y := by
  have hx : issignaling_inline s1 x = 0 ∨ issignaling_inline s1 x = 1 := by
    unfold issignaling_inline
    simp only []
    split <;> split <;> simp
  have hy : issignaling_inline s2 y = 0 ∨ issignaling_inline s2 y = 1 := by
    unfold issignaling_inline
    simp only []
    split <;> split <;> simp
  omega

theorem issignalingf_inline_iff_fields (snan : Int) (ix : Nat) (hix : ix < 2 ^ 32) :
    issignalingf_inline snan (asfloat ix) ≠ 0 ↔
      if snan = 0 then (ix / 2 ^ 23 % 256 = 0xff ∧ ix / 2 ^ 22 % 2 = 1)
      else (ix / 2 ^ 23 % 256 = 0xff ∧ ix / 2 ^ 22 % 2 = 0 ∧ ix % 2 ^ 22 ≠ 0) := by
  rw [issignalingf_inline_ne_zero, asuint_asfloat_of_lt ix hix]
  by_cases hs : snan = 0
  · rw [if_pos hs, if_pos hs]
    exact legacy_test32 ix
  · rw [if_neg hs, if_neg hs]
    exact snan2008_test32 ix hix

theorem issignaling_inline_iff_fields (snan : Int) (ix : Nat) (hix : ix < 2 ^ 64) :
    issignaling_inline snan (asdouble ix) ≠ 0 ↔
      if snan = 0 then (ix / 2 ^ 52 % 2048 = 0x7ff ∧ ix / 2 ^ 51 % 2 = 1)
      else (ix / 2 ^ 52 % 2048 = 0x7ff ∧ ix / 2 ^ 51 % 2 = 0 ∧ ix % 2 ^ 51 ≠ 0) := by
  rw [issignaling_inline_ne_zero, asuint64_asdouble_of_lt ix hix]
  by_cases hs : snan = 0
  · rw [if_pos hs, if_pos hs]
    exact legacy_test64 ix
  · rw [if_neg hs, if_neg hs]
    exact snan2008_test64 ix hix

/-- C16: the signaling-NaN tests do not depend on the sign bit: under every
value of `IEEE_754_2008_SNAN` (legacy and 2008 policy), `issignalingf_inline`
gives the same answer on `ix` and on `ix ^ 0x80000000` for every 32-bit pattern,
and `issignaling_inline` gives the same answer on `jx` and on
`jx ^ 0x8000000000000000` for every 64-bit pattern. -/
theorem issignaling_sign_independent (snan : Int) (ix jx : Nat)
    (hix : ix < 2 ^ 32) (hjx : jx < 2 ^ 64) :
    issignalingf_inline snan (asfloat (ix ^^^ 0x80000000))
      = issignalingf_inline snan (asfloat ix) ∧
    issignaling_inline snan (asdouble (jx ^^^ 0x8000000000000000))
      = issignaling_inline snan (asdouble jx) := by
  constructor
  · apply issignalingf_inline_eq_of_iff
    have hx : ix ^^^ 0x80000000 < 2 ^ 32 := Nat.xor_lt_two_pow hix (by decide)
    have he := xor_two_pow_eq ix 31
    rw [issignalingf_inline_iff_fields snan _ hx, issignalingf_inline_iff_fields snan _ hix]
    norm_num at he hix ⊢
    rw [he]
    by_cases hs : snan = 0
    · simp only [hs, if_true]
      split <;> omega
    · simp only [hs, if_false]
      split <;> omega
  · apply issignaling_inline_eq_of_iff
    have hx : jx ^^^ 0x8000000000000000 < 2 ^ 64 := Nat.xor_lt_two_pow hjx (by decide)
    have he := xor_two_pow_eq jx 63
    rw [issignaling_inline_iff_fields snan _ hx, issignaling_inline_iff_fields snan _ hjx]
    norm_num at he hjx ⊢
    rw [he]
    by_cases hs : snan = 0
    · simp only [hs, if_true]
      split <;> omega
    · simp only [hs, if_false]
      split <;> omega

theorem issignaling_sign_independent_witness :
    issignalingf_inline 1 (asfloat (0x7fa00000 ^^^ 0x80000000))
      = issignalingf_inline 1 (asfloat 0x7fa00000) ∧
    issignaling_inline 1 (asdouble (0x7ff8000000000000 ^^^ 0x8000000000000000))
      = issignaling_inline 1 (asdouble 0x7ff8000000000000) :=
  issignaling_sign_independent 1 0x7fa00000 0x7ff8000000000000 (by decide) (by decide)

/-- C19: the two policies are exact complements on NaNs: for every 32-bit
(resp. 64-bit) pattern that encodes a NaN (exponent all-ones, mantissa
nonzero), `issignalingf_inline` (resp. `issignaling_inline`) computed with
`IEEE_754_2008_SNAN = 0` is true if and only if the same function computed with
`IEEE_754_2008_SNAN = 1` is false; on every non-NaN pattern both are false. -/
theorem issignaling_policies_complementary (ix jx : Nat)
    (hix : ix < 2 ^ 32) (hjx : jx < 2 ^ 64) :
    ((ix / 2 ^ 23 % 256 = 0xff ∧ ix % 2 ^ 23 ≠ 0) →
      (issignalingf_inline 0 (asfloat ix) ≠ 0 ↔ issignalingf_inline 1 (asfloat ix) = 0)) ∧
    (¬ (ix / 2 ^ 23 % 256 = 0xff ∧ ix % 2 ^ 23 ≠ 0) →
      (issignalingf_inline 0 (asfloat ix) = 0 ∧ issignalingf_inline 1 (asfloat ix) = 0)) ∧
    ((jx / 2 ^ 52 % 2048 = 0x7ff ∧ jx % 2 ^ 52 ≠ 0) →
      (issignaling_inline 0 (asdouble jx) ≠ 0 ↔ issignaling_inline 1 (asdouble jx) = 0)) ∧
    (¬ (jx / 2 ^ 52 % 2048 = 0x7ff ∧ jx % 2 ^ 52 ≠ 0) →
      (issignaling_inline 0 (asdouble jx) = 0 ∧ issignaling_inline 1 (asdouble jx) = 0)) := by
  have l32 := issignalingf_inline_iff_fields 0 ix hix
  have n32 := issignalingf_inline_iff_fields 1 ix hix
  have l64 := issignaling_inline_iff_fields 0 jx hjx
  have n64 := issignaling_inline_iff_fields 1 jx hjx
  rw [if_pos rfl] at l32 l64
  rw [if_neg (by decide)] at n32 n64
  have e32 : issignalingf_inline 1 (asfloat ix) = 0 ↔
      ¬ (ix / 2 ^ 23 % 256 = 0xff ∧ ix / 2 ^ 22 % 2 = 0 ∧ ix % 2 ^ 22 ≠ 0) := by
    rw [← n32, not_not]
  have z32 : issignalingf_inline 0 (asfloat ix) = 0 ↔
      ¬ (ix / 2 ^ 23 % 256 = 0xff ∧ ix / 2 ^ 22 % 2 = 1) := by
    rw [← l32, not_not]
  have e64 : issignaling_inline 1 (asdouble jx) = 0 ↔
      ¬ (jx / 2 ^ 52 % 2048 = 0x7ff ∧ jx / 2 ^ 51 % 2 = 0 ∧ jx % 2 ^ 51 ≠ 0) := by
    rw [← n64, not_not]
  have z64 : issignaling_inline 0 (asdouble jx) = 0 ↔
      ¬ (jx / 2 ^ 52 % 2048 = 0x7ff ∧ jx / 2 ^ 51 % 2 = 1) := by
    rw [← l64, not_not]
  refine ⟨?_, ?_, ?_, ?_⟩
  · intro h
    rw [l32, e32]
    omega
  · intro h
    rw [z32, e32]
    omega
  · intro h
    rw [l64, e64]
    omega
  · intro h
    rw [z64, e64]
    omega

theorem issignaling_policies_complementary_witness :
    (issignalingf_inline 0 (asfloat 0x7f800001) ≠ 0 ↔
      issignalingf_inline 1 (asfloat 0x7f800001) = 0) ∧
    (issignaling_inline 0 (asdouble 0xfff8000000000000) ≠ 0 ↔
      issignaling_inline 1 (asdouble 0xfff8000000000000) = 0) :=
  ⟨(issignaling_policies_complementary 0x7f800001 0xfff8000000000000
      (by decide) (by decide)).1 (by decide),
   (issignaling_policies_complementary 0x7f800001 0xfff8000000000000
      (by decide) (by decide)).2.2.1 (by decide)⟩

/-! ## Recomposition of the extracted fields -/

theorem mul_two_pow_and_of_lt (a b k : Nat) (hb : b < 2 ^ k) : (a * 2 ^ k) &&& b = 0 := by
  rw [and_block (a * 2 ^ k) b k, Nat.div_eq_of_lt hb, Nat.mul_mod_left]
  simp

theorem mul_two_pow_or_of_lt (a b k : Nat) (hb : b < 2 ^ k) :
    (a * 2 ^ k) ||| b = a * 2 ^ k + b := by
  rw [Nat.mul_comm a (2 ^ k)]
  exact (Nat.mul_add_lt_is_or hb a).symm

theorem toUInt32_natCast (n : Nat) (h : n < 2 ^ 32) : toUInt32 (n : Int) = n := by
  simp only [toUInt32]
  omega

theorem toUInt64_natCast (n : Nat) (h : n < 2 ^ 64) : toUInt64 (n : Int) = n := by
  simp only [toUInt64]
  omega

theorem toUInt32_lt (ix : Int) : toUInt32 ix < 2 ^ 32 := by
  simp only [toUInt32]
  omega

theorem toUInt64_lt (ix : Int) : toUInt64 ix < 2 ^ 64 := by
  simp only [toUInt64]
  omega

theorem recompose_nat32 (u : Nat) (hu : u < 2 ^ 32) :
    ((u / 2 ^ 31) <<< 31 % 2 ^ 32 ||| (u / 2 ^ 23 % 2 ^ 8) <<< 23 % 2 ^ 32 ||| u % 2 ^ 23) = u ∧
    ((u / 2 ^ 31) <<< 31 % 2 ^ 32) &&& ((u / 2 ^ 23 % 2 ^ 8) <<< 23 % 2 ^ 32) = 0 ∧
    ((u / 2 ^ 31) <<< 31 % 2 ^ 32) &&& (u % 2 ^ 23) = 0 ∧
    ((u / 2 ^ 23 % 2 ^ 8) <<< 23 % 2 ^ 32) &&& (u % 2 ^ 23) = 0 := by
  have hs : (u / 2 ^ 31) <<< 31 % 2 ^ 32 = (u / 2 ^ 31) * 2 ^ 31 := by
    rw [Nat.shiftLeft_eq]
    omega
  have he : (u / 2 ^ 23 % 2 ^ 8) <<< 23 % 2 ^ 32 = (u / 2 ^ 23 % 2 ^ 8) * 2 ^ 23 := by
    rw [Nat.shiftLeft_eq]
    omega
  have hE : (u / 2 ^ 23 % 2 ^ 8) * 2 ^ 23 < 2 ^ 31 := by omega
  have hM : u % 2 ^ 23 < 2 ^ 23 := by omega
  have hM31 : u % 2 ^ 23 < 2 ^ 31 := by omega
  have hEM : (u / 2 ^ 23 % 2 ^ 8) * 2 ^ 23 + u % 2 ^ 23 < 2 ^ 31 := by omega
  rw [hs, he]
  refine ⟨?_, mul_two_pow_and_of_lt _ _ 31 hE, mul_two_pow_and_of_lt _ _ 31 hM31,
    mul_two_pow_and_of_lt _ _ 23 hM⟩
  rw [Nat.lor_assoc, mul_two_pow_or_of_lt _ _ 23 hM, mul_two_pow_or_of_lt _ _ 31 hEM]
  omega

theorem recompose_nat64 (u : Nat) (hu : u < 2 ^ 64) :
    ((u / 2 ^ 63) <<< 63 % 2 ^ 64 ||| (u / 2 ^ 52 % 2 ^ 11) <<< 52 % 2 ^ 64 ||| u % 2 ^ 52) = u ∧
    ((u / 2 ^ 63) <<< 63 % 2 ^ 64) &&& ((u / 2 ^ 52 % 2 ^ 11) <<< 52 % 2 ^ 64) = 0 ∧
    ((u / 2 ^ 63) <<< 63 % 2 ^ 64) &&& (u % 2 ^ 52) = 0 ∧
    ((u / 2 ^ 52 % 2 ^ 11) <<< 52 % 2 ^ 64) &&& (u % 2 ^ 52) = 0 := by
  have hs : (u / 2 ^ 63) <<< 63 % 2 ^ 64 = (u / 2 ^ 63) * 2 ^ 63 := by
    rw [Nat.shiftLeft_eq]
    omega
  have he : (u / 2 ^ 52 % 2 ^ 11) <<< 52 % 2 ^ 64 = (u / 2 ^ 52 % 2 ^ 11) * 2 ^ 52 := by
    rw [Nat.shiftLeft_eq]
    omega
  have hE : (u / 2 ^ 52 % 2 ^ 11) * 2 ^ 52 < 2 ^ 63 := by omega
  have hM : u % 2 ^ 52 < 2 ^ 52 := by omega
  have hM63 : u % 2 ^ 52 < 2 ^ 63 := by omega
  have hEM : (u / 2 ^ 52 % 2 ^ 11) * 2 ^ 52 + u % 2 ^ 52 < 2 ^ 63 := by omega
  rw [hs, he]
  refine ⟨?_, mul_two_pow_and_of_lt _ _ 63 hE, mul_two_pow_and_of_lt _ _ 63 hM63,
    mul_two_pow_and_of_lt _ _ 52 hM⟩
  rw [Nat.lor_assoc, mul_two_pow_or_of_lt _ _ 52 hM, mul_two_pow_or_of_lt _ _ 63 hEM]
  omega

theorem fields32_as_unsigned (ix : Int) :
    toUInt32 (_sign32 ix) = toUInt32 ix / 2 ^ 31 ∧
    toUInt32 (_exponent32 ix) = toUInt32 ix / 2 ^ 23 % 2 ^ 8 ∧
    toUInt32 (_significand32 ix) = toUInt32 ix % 2 ^ 23 := by
  have hu := toUInt32_lt ix
  rw [sign32_eq, exponent32_eq, significand32_eq]
  refine ⟨toUInt32_natCast _ ?_, toUInt32_natCast _ ?_, toUInt32_natCast _ ?_⟩ <;> omega

theorem fields64_as_unsigned (ix : Int) :
    toUInt64 (_sign64 ix) = toUInt64 ix / 2 ^ 63 ∧
    toUInt64 (_exponent64 ix) = toUInt64 ix / 2 ^ 52 % 2 ^ 11 ∧
    toUInt64 (_significand64 ix) = toUInt64 ix % 2 ^ 52 := by
  have hu := toUInt64_lt ix
  rw [sign64_eq, exponent64_eq, significand64_eq]
  refine ⟨toUInt64_natCast _ ?_, toUInt64_natCast _ ?_, toUInt64_natCast _ ?_⟩ <;> omega

/-- C18: field extraction is a lossless decomposition. For every signed 32-bit
`ix`, `(_sign32 ix << 31) | (_exponent32 ix << 23) | _significand32 ix`, computed
on unsigned 32-bit values, is the bit pattern of `ix`, and the three shifted
fields have no bit in common; likewise for every signed 64-bit `jx` with
`_sign64 << 63`, `_exponent64 << 52` and `_significand64`. So two patterns with
equal sign, exponent and significand are equal. -/
theorem field_extraction_lossless (ix iy jx jy : Int)
    (hix : -2 ^ 31 ≤ ix ∧ ix < 2 ^ 31) (hiy : -2 ^ 31 ≤ iy ∧ iy < 2 ^ 31)
    (hjx : -2 ^ 63 ≤ jx ∧ jx < 2 ^ 63) (hjy : -2 ^ 63 ≤ jy ∧ jy < 2 ^ 63) :
    (toUInt32 (_sign32 ix) <<< 31 % 2 ^ 32 ||| toUInt32 (_exponent32 ix) <<< 23 % 2 ^ 32
        ||| toUInt32 (_significand32 ix)) = toUInt32 ix ∧
    (toUInt32 (_sign32 ix) <<< 31 % 2 ^ 32) &&&
        (toUInt32 (_exponent32 ix) <<< 23 % 2 ^ 32) = 0 ∧
    (toUInt32 (_sign32 ix) <<< 31 % 2 ^ 32) &&& toUInt32 (_significand32 ix) = 0 ∧
    (toUInt32 (_exponent32 ix) <<< 23 % 2 ^ 32) &&& toUInt32 (_significand32 ix) = 0 ∧
    (_sign32 ix = _sign32 iy → _exponent32 ix = _exponent32 iy →
        _significand32 ix = _significand32 iy → ix = iy) ∧
    (toUInt64 (_sign64 jx) <<< 63 % 2 ^ 64 ||| toUInt64 (_exponent64 jx) <<< 52 % 2 ^ 64
        ||| toUInt64 (_significand64 jx)) = toUInt64 jx ∧
    (toUInt64 (_sign64 jx) <<< 63 % 2 ^ 64) &&&
        (toUInt64 (_exponent64 jx) <<< 52 % 2 ^ 64) = 0 ∧
    (toUInt64 (_sign64 jx) <<< 63 % 2 ^ 64) &&& toUInt64 (_significand64 jx) = 0 ∧
    (toUInt64 (_exponent64 jx) <<< 52 % 2 ^ 64) &&& toUInt64 (_significand64 jx) = 0 ∧
    (_sign64 jx = _sign64 jy → _exponent64 jx = _exponent64 jy →
        _significand64 jx = _significand64 jy → jx = jy) := by
  obtain ⟨a1, a2, a3⟩ := fields32_as_unsigned ix
  obtain ⟨b1, b2, b3⟩ := fields64_as_unsigned jx
  obtain ⟨r1, r2, r3, r4⟩ := recompose_nat32 (toUInt32 ix) (toUInt32_lt ix)
  obtain ⟨q1, q2, q3, q4⟩ := recompose_nat64 (toUInt64 jx) (toUInt64_lt jx)
  rw [a1, a2, a3, b1, b2, b3]
  refine ⟨r1, r2, r3, r4, ?_, q1, q2, q3, q4, ?_⟩
  · intro e1 e2 e3
    rw [sign32_eq, sign32_eq] at e1
    rw [exponent32_eq, exponent32_eq] at e2
    rw [significand32_eq, significand32_eq] at e3
    have hu := toUInt32_lt ix
    have hv := toUInt32_lt iy
    have huv : toUInt32 ix = toUInt32 iy := by omega
    simp only [toUInt32] at huv
    omega
  · intro e1 e2 e3
    rw [sign64_eq, sign64_eq] at e1
    rw [exponent64_eq, exponent64_eq] at e2
    rw [significand64_eq, significand64_eq] at e3
    have hu := toUInt64_lt jx
    have hv := toUInt64_lt jy
    have huv : toUInt64 jx = toUInt64 jy := by omega
    simp only [toUInt64] at huv
    omega

theorem field_extraction_lossless_witness :
    (toUInt32 (_sign32 (-4194303)) <<< 31 % 2 ^ 32
        ||| toUInt32 (_exponent32 (-4194303)) <<< 23 % 2 ^ 32
        ||| toUInt32 (_significand32 (-4194303))) = toUInt32 (-4194303) ∧
    (toUInt64 (_sign64 (-4503599627370495)) <<< 63 % 2 ^ 64
        ||| toUInt64 (_exponent64 (-4503599627370495)) <<< 52 % 2 ^ 64
        ||| toUInt64 (_significand64 (-4503599627370495))) = toUInt64 (-4503599627370495) :=
  ⟨(field_extraction_lossless (-4194303) 5 (-4503599627370495) 7
      (by decide) (by decide) (by decide) (by decide)).1,
   (field_extraction_lossless (-4194303) 5 (-4503599627370495) 7
      (by decide) (by decide) (by decide) (by decide)).2.2.2.2.2.1⟩

/-! ## Further claims about the table schemas and the capability flags -/

/-- C17: `log_data` and `log2_data` declare `tab2` if and only if
`HAVE_FAST_FMA = 0`; when present, `tab2` has exactly as many entries as the
same struct's `tab` (`1 << LOG_TABLE_BITS = 128`, resp.
`1 << LOG2_TABLE_BITS = 64`); no other table declares a `tab2`. -/
theorem tab2_presence (have_fast_fma : Int) :
    (Member.has (log_data have_fast_fma) "tab2" = true ↔ have_fast_fma = 0) ∧
    (Member.has (log2_data have_fast_fma) "tab2" = true ↔ have_fast_fma = 0) ∧
    (have_fast_fma = 0 →
      Member.dimOf (log_data have_fast_fma) "tab2"
          = Member.dimOf (log_data have_fast_fma) "tab" ∧
      Member.dimOf (log_data have_fast_fma) "tab2" = some (1 <<< LOG_TABLE_BITS) ∧
      1 <<< LOG_TABLE_BITS = 128 ∧
      Member.dimOf (log2_data have_fast_fma) "tab2"
          = Member.dimOf (log2_data have_fast_fma) "tab" ∧
      Member.dimOf (log2_data have_fast_fma) "tab2" = some (1 <<< LOG2_TABLE_BITS) ∧
      1 <<< LOG2_TABLE_BITS = 64) ∧
    Member.has exp2f_data "tab2" = false ∧
    Member.has logf_data "tab2" = false ∧
    Member.has log2f_data "tab2" = false ∧
    Member.has powf_log2_data "tab2" = false ∧
    Member.has exp_data "tab2" = false ∧
    Member.has pow_log_data "tab2" = false := by
  refine ⟨?_, ?_, ?_, by decide, by decide, by decide, by decide, by decide, by decide⟩
  · by_cases h : have_fast_fma = 0 <;> simp [Member.has, log_data, h]
  · by_cases h : have_fast_fma = 0 <;> simp [Member.has, log2_data, h]
  · intro h
    subst h
    decide

theorem tab2_presence_witness :
    HAVE_FAST_FMA none ⟨none, none, none, none, none, none, none⟩ = 0 ∧
    Member.dimOf (log_data (HAVE_FAST_FMA none ⟨none, none, none, none, none, none, none⟩))
        "tab2" = some 128 ∧
    Member.dimOf (log2_data (HAVE_FAST_FMA none ⟨none, none, none, none, none, none, none⟩))
        "tab2" = some 64 :=
  ⟨by decide,
   ((tab2_presence (HAVE_FAST_FMA none ⟨none, none, none, none, none, none, none⟩)).2.2.1
      (by decide)).2.1,
   ((tab2_presence (HAVE_FAST_FMA none ⟨none, none, none, none, none, none, none⟩)).2.2.1
      (by decide)).2.2.2.2.1⟩

/-- C20: capability flags resolved by default are mutually consistent, for
every combination of architecture macros: with neither `HAVE_FAST_FMA` nor
`HAVE_FAST_FMAF` overridden, `HAVE_FAST_FMA = 1` implies `HAVE_FAST_FMAF = 1`;
with neither `HAVE_FAST_ROUND` nor `HAVE_FAST_LROUND` overridden,
`HAVE_FAST_LROUND = 1` implies `HAVE_FAST_ROUND = 1`; and `TOINT_INTRINSICS = 1`
if and only if `HAVE_FAST_ROUND` is nonzero, in which case
`POWF_SCALE_BITS = EXP2F_TABLE_BITS = 5` and `POWF_SCALE = 32`, otherwise
`POWF_SCALE_BITS = 0` and `POWF_SCALE = 1`. -/
theorem capability_flags_consistent (t : Target) (round_predefined : Option Int) :
    (HAVE_FAST_FMA none t = 1 → HAVE_FAST_FMAF none (HAVE_FAST_FMA none t) t = 1) ∧
    (HAVE_FAST_LROUND none t = 1 → HAVE_FAST_ROUND none t = 1) ∧
    (TOINT_INTRINSICS none (HAVE_FAST_ROUND round_predefined t) = 1 ↔
      HAVE_FAST_ROUND round_predefined t ≠ 0) ∧
    (HAVE_FAST_ROUND round_predefined t ≠ 0 →
      POWF_SCALE_BITS (TOINT_INTRINSICS none (HAVE_FAST_ROUND round_predefined t))
          = EXP2F_TABLE_BITS ∧
      POWF_SCALE_BITS (TOINT_INTRINSICS none (HAVE_FAST_ROUND round_predefined t)) = 5 ∧
      POWF_SCALE (TOINT_INTRINSICS none (HAVE_FAST_ROUND round_predefined t)) = 32) ∧
    (HAVE_FAST_ROUND round_predefined t = 0 →
      POWF_SCALE_BITS (TOINT_INTRINSICS none (HAVE_FAST_ROUND round_predefined t)) = 0 ∧
      POWF_SCALE (TOINT_INTRINSICS none (HAVE_FAST_ROUND round_predefined t)) = 1) := by
  refine ⟨?_, ?_, ?_, ?_, ?_⟩
  · intro h
    simp [HAVE_FAST_FMAF, h]
  · intro h
    by_cases ha : ppValue t.__aarch64__ = 0
    · simp [HAVE_FAST_LROUND, ha] at h
    · simp [HAVE_FAST_ROUND, ha]
  · generalize HAVE_FAST_ROUND round_predefined t = r
    by_cases hr : r = 0 <;> simp [TOINT_INTRINSICS, hr]
  · generalize HAVE_FAST_ROUND round_predefined t = r
    intro hr
    simp [TOINT_INTRINSICS, POWF_SCALE, POWF_SCALE_BITS, EXP2F_TABLE_BITS, hr]
  · generalize HAVE_FAST_ROUND round_predefined t = r
    intro hr
    simp [TOINT_INTRINSICS, POWF_SCALE, POWF_SCALE_BITS, hr]

theorem capability_flags_consistent_witness :
    HAVE_FAST_FMAF none (HAVE_FAST_FMA none ⟨some 1, some 12, some 2, some 1, none, none, none⟩)
      ⟨some 1, some 12, some 2, some 1, none, none, none⟩ = 1 ∧
    HAVE_FAST_ROUND none ⟨some 1, some 12, some 2, some 1, none, none, none⟩ = 1 ∧
    POWF_SCALE (TOINT_INTRINSICS none
      (HAVE_FAST_ROUND none ⟨some 1, some 12, some 2, some 1, none, none, none⟩)) = 32 ∧
    POWF_SCALE (TOINT_INTRINSICS none
      (HAVE_FAST_ROUND (some 0) ⟨some 1, some 12, some 2, some 1, none, none, none⟩)) = 1 :=
  ⟨(capability_flags_consistent ⟨some 1, some 12, some 2, some 1, none, none, none⟩ none).1
      (by decide),
   (capability_flags_consistent ⟨some 1, some 12, some 2, some 1, none, none, none⟩ none).2.1
      (by decide),
   ((capability_flags_consistent ⟨some 1, some 12, some 2, some 1, none, none, none⟩
      none).2.2.2.1 (by decide)).2.2,
   ((capability_flags_consistent ⟨some 1, some 12, some 2, some 1, none, none, none⟩
      (some 0)).2.2.2.2 (by decide)).2⟩

end MathConfig
